import Mathlib

/-!
Verification development for the adaptive streaming upload pipeline in
`src/stream/constant_upload_test.py`.  The Python functions are shallowly
embedded: stateful loops become explicit recursion with state passing,
wall-clock time becomes an explicit rational clock that each upload call
and each backoff sleep advances, machine numbers become `Nat`/`Int`/`ℚ`.
-/

namespace ConstantUpload

/-- Outcome of one call of the external upload interface
(`blob.upload_from_file` inside `upload_one_bytes`): whether the call
succeeded, how long it took, and the error text when it failed. -/
structure Attempt where
  ok : Bool
  dur : ℚ
  err : String
deriving Repr, DecidableEq

/-- Record produced by `upload_one_bytes` for one frame
(dict literal at the end of `upload_one_bytes`). -/
structure UploadResult where
  blob : String
  size_bytes : ℕ
  duration_s : ℚ
  retries : ℕ
  status : String
  error : String
deriving Repr, DecidableEq

/-- The `while True` retry loop of `upload_one_bytes`.  `sched k` is the
outcome of the `k`-th call of the upload interface, `retries` is the
configured `retries` argument, `attempt` the Python `attempt` counter and
`t` the current value of `perf_counter()`.  Returns the final `status`,
the final `attempt` counter (recorded as the `retries` field), the list
of backoff sleep lengths performed (`time.sleep(min(2 ** attempt, 10))`),
the list of durations of the upload calls made, the terminal error text,
and the clock when the loop exits. -/
def uploadLoop (sched : ℕ → Attempt) (retries : ℕ) (k attempt : ℕ) (t : ℚ) :
    String × ℕ × List ℕ × List ℚ × String × ℚ :=
  let a := sched k
  let t1 := t + a.dur
  if a.ok then
    ("ok", attempt, [], [a.dur], "", t1)
  else if retries < attempt + 1 then
    ("fail", attempt + 1, [], [a.dur], a.err, t1)
  else
    let s : ℕ := min (2 ^ (attempt + 1)) 10
    let r := uploadLoop sched retries (k + 1) (attempt + 1) (t1 + s)
    (r.1, r.2.1, s :: r.2.2.1, a.dur :: r.2.2.2.1, r.2.2.2.2.1, r.2.2.2.2.2)
termination_by retries + 1 - attempt
decreasing_by omega

/-- Embedding of `upload_one_bytes`, started at clock `t0` with payload size
`size = len(data)`.  Returns the `UploadResult` together with the list of
backoff sleeps performed. -/
def upload_one_bytes (sched : ℕ → Attempt) (blob_name : String) (size : ℕ)
    (retries : ℕ) (t0 : ℚ) : UploadResult × List ℕ :=
  let r := uploadLoop sched retries 0 0 t0
  ({ blob := blob_name
     size_bytes := size
     duration_s := r.2.2.2.2.2 - t0
     retries := r.2.1
     status := r.1
     error := r.2.2.2.2.1 }, r.2.2.1)

/-- A schedule on which every upload call fails (with zero duration and a
fixed error text), used for the all-attempts-fail scenarios. -/
def alwaysFail : ℕ → Attempt := fun _ => { ok := false, dur := 0, err := "E" }

/-- Shared state touched by `uploader_worker` after each attempt sequence:
the result log `rows` and the cumulative byte counter `sent_bytes`. -/
structure WorkerState where
  rows : List UploadResult
  sent_bytes : ℕ
deriving Repr, DecidableEq

/-- The two statements `rows.append(r)` and `sent_bytes += r["size_bytes"]`
that `uploader_worker` runs after `upload_one_bytes` returns. -/
def workerRecord (st : WorkerState) (r : UploadResult) : WorkerState :=
  { rows := st.rows ++ [r], sent_bytes := st.sent_bytes + r.size_bytes }

/-- Repeated application of `workerRecord`, one step per result a worker
appends over a run. -/
def workerRecordAll (st : WorkerState) : List UploadResult → WorkerState
  | [] => st
  | r :: rs => workerRecordAll (workerRecord st r) rs

/-- The `Adjust FPS based on queue occupancy` block of `main`
(`if qsize > args.queue_size * 0.8 and fps > args.min_fps: fps -= 1
elif qsize < args.queue_size * 0.2 and fps < args.max_fps: fps += 1`). -/
def fpsUpdate (queue_size min_fps max_fps qsize fps : ℕ) : ℕ :=
  if (qsize : ℚ) > (queue_size : ℚ) * (8 / 10) ∧ min_fps < fps then fps - 1
  else if (qsize : ℚ) < (queue_size : ℚ) * (2 / 10) ∧ fps < max_fps then fps + 1
  else fps

/-- Embedding of `interval = 1.0 / fps` in `main`. -/
def interval (fps : ℕ) : ℚ := 1 / (fps : ℚ)

/-- Rate Controller policy as the spec words it (§4.2), phrased with the
occupancy ratio `occupancy / capacity`; kept separate from `fpsUpdate`
so the two can be compared. -/
def rateControllerSpec (capacity min_fps max_fps occupancy fps : ℕ) : ℕ :=
  if (occupancy : ℚ) / (capacity : ℚ) > 8 / 10 ∧ min_fps < fps then fps - 1
  else if (occupancy : ℚ) / (capacity : ℚ) < 2 / 10 ∧ fps < max_fps then fps + 1
  else fps

/-- The fps value after a sequence of producer cycles, one queue-occupancy
observation per cycle. -/
def fpsAfterCycles (queue_size min_fps max_fps : ℕ) (fps : ℕ) : List ℕ → ℕ
  | [] => fps
  | q :: qs => fpsAfterCycles queue_size min_fps max_fps
      (fpsUpdate queue_size min_fps max_fps q fps) qs

/-- The sampling loop of `monitor_system`, abstracted over the sequence of
values `stop_evt.is_set()` returns: `obs` lists the observed flag value at
each `while not stop_evt.is_set()` check, `i` is the index of the current
check.  Returns the check indices at which a sample row was written. -/
def monitorSampleIdxs : List Bool → ℕ → List ℕ
  | [], _ => []
  | b :: rest, i => if b then [] else i :: monitorSampleIdxs rest (i + 1)

/-- Check indices at which `monitor_system` writes a sample row. -/
def monitorSamples (obs : List Bool) : List ℕ := monitorSampleIdxs obs 0

/-- Index of the first check at which the shutdown flag is observed set. -/
def shutdownIndex (obs : List Bool) : ℕ := obs.findIdx (fun b => b)

/-- One `psutil.net_io_counters` record. -/
structure NetCounters where
  bytes_sent : ℕ
  bytes_recv : ℕ
  packets_sent : ℕ
  packets_recv : ℕ
deriving Repr, DecidableEq

/-- The per-sample body of `monitor_system` that chooses the counters and
the `nic` column: `nic` is the configured interface (`None` or a string,
with Python truthiness: the empty string is falsy), `pernic` the
per-interface counter table, `aggregate` the aggregate counters.  Returns
the counters used for the row and the value written in the `nic` column
(`nic or "aggregate"`). -/
def sampleRow (nic : Option String) (pernic : String → Option NetCounters)
    (aggregate : NetCounters) : NetCounters × String :=
  match nic with
  | none => (aggregate, "aggregate")
  | some s =>
    if s = "" then (aggregate, "aggregate")
    else
      match pernic s with
      | some c => (c, s)
      | none => (aggregate, s)

/-- Rows of the result log with `status == "ok"` (the filters building
`sizes` and `durs` in `main`). -/
def okRows (rows : List UploadResult) : List UploadResult :=
  rows.filter (fun r => r.status = "ok")

/-- Embedding of `sizes = [r["size_bytes"] for r in rows if r["status"] == "ok"]`. -/
def sizes (rows : List UploadResult) : List ℕ :=
  (okRows rows).map (fun r => r.size_bytes)

/-- Embedding of `durs = [r["duration_s"] for r in rows if r["status"] == "ok"]`. -/
def durs (rows : List UploadResult) : List ℚ :=
  (okRows rows).map (fun r => r.duration_s)

/-- Embedding of `total_bytes = float(sizes.sum()) if sizes.size else 0.0`, followed by
the `int(total_bytes)` stored as `bytes_total` in the summary; the numeric
conversions are identities in the exact model. -/
def bytes_total (rows : List UploadResult) : ℕ :=
  if (sizes rows).isEmpty then 0 else (sizes rows).sum

/-- Embedding of `np.percentile(a, p)` with the default linear interpolation on the
sorted data: with `n = a.length` and `h = (n - 1) * p / 100`, the result
is `s[⌊h⌋] + (h - ⌊h⌋) * (s[⌈h⌉] - s[⌊h⌋])` for `s` the sorted data. -/
def npPercentile (a : List ℚ) (p : ℚ) : ℚ :=
  let s := a.insertionSort (· ≤ ·)
  let n := a.length
  let h : ℚ := ((n : ℚ) - 1) * p / 100
  let lo := (⌊h⌋).toNat
  let hi := (⌈h⌉).toNat
  let slo := s.getD lo 0
  let shi := s.getD hi 0
  slo + (h - (lo : ℚ)) * (shi - slo)

/-- The helper `pct(a, p)` in `main`:
`float(np.percentile(a, p)) if a.size else None`. -/
def pct (a : List ℚ) (p : ℚ) : Option ℚ :=
  if a.isEmpty then none else some (npPercentile a p)

/-- The `per_frame_latency_s` object of the summary: the four percentiles
of the `ok` durations. -/
def latencyPercentiles (rows : List UploadResult) :
    Option ℚ × Option ℚ × Option ℚ × Option ℚ :=
  (pct (durs rows) 50, pct (durs rows) 90, pct (durs rows) 95, pct (durs rows) 99)

/-- A concrete failed result with the field values recorded when every
attempt of a 100-byte upload fails under `max_retries = 3`. -/
def failResultEx : UploadResult :=
  { blob := "b"
    size_bytes := 100
    duration_s := 0
    retries := 4
    status := "fail"
    error := "E" }

/-- Joint inventory of facts about the retry loop, by strong induction on
the number of failures the loop may still absorb: the exit clock accounts
for every upload call and every backoff sleep; the `i`-th sleep from state
`attempt` is `min(2 ^ (attempt + 1 + i), 10)`; there is exactly one more
upload call than sleeps; and the final `attempt` counter is at most
`retries + 1`, at most `retries` when the loop ends in `"ok"`. -/
lemma uploadLoop_master (sched : ℕ → Attempt) :
    ∀ n retries k attempt : ℕ, ∀ t : ℚ, retries + 1 - attempt ≤ n →
      ((uploadLoop sched retries k attempt t).2.2.2.2.2 =
          t + ((uploadLoop sched retries k attempt t).2.2.2.1).sum
            + (((uploadLoop sched retries k attempt t).2.2.1).sum : ℚ))
      ∧ (∀ i (h : i < ((uploadLoop sched retries k attempt t).2.2.1).length),
          ((uploadLoop sched retries k attempt t).2.2.1).get ⟨i, h⟩
            = min (2 ^ (attempt + 1 + i)) 10)
      ∧ ((uploadLoop sched retries k attempt t).2.2.2.1).length
          = ((uploadLoop sched retries k attempt t).2.2.1).length + 1
      ∧ (attempt ≤ retries →
          (uploadLoop sched retries k attempt t).2.1 ≤ retries + 1
          ∧ ((uploadLoop sched retries k attempt t).1 = "ok" →
              (uploadLoop sched retries k attempt t).2.1 ≤ retries)) := by
  intro n
  induction n using Nat.strong_induction_on with
  | _ n ih =>
    intro retries k attempt t hn
    rw [uploadLoop.eq_def]
    by_cases hok : (sched k).ok = true
    · rw [if_pos hok]
      refine ⟨by simp, ?_, by simp, ?_⟩
      · intro i h
        simp at h
      · intro hat
        exact ⟨by simpa using Nat.le_succ_of_le hat, fun _ => by simpa using hat⟩
    · rw [if_neg hok]
      by_cases hterm : retries < attempt + 1
      · rw [if_pos hterm]
        refine ⟨by simp, ?_, by simp, ?_⟩
        · intro i h
          simp at h
        · intro hat
          refine ⟨by simpa using Nat.succ_le_succ hat, ?_⟩
          intro hok2
          simp at hok2
      · rw [if_neg hterm]
        have hat : attempt ≤ retries := by omega
        have hlt : retries - attempt < n := by omega
        obtain ⟨ihclock, ihget, ihlen, ihret⟩ :=
          ih (retries - attempt) hlt retries (k + 1) (attempt + 1)
            (t + (sched k).dur + ((min (2 ^ (attempt + 1)) 10 : ℕ) : ℚ)) (by omega)
        refine ⟨?_, ?_, ?_, ?_⟩
        · simp only [List.sum_cons, Nat.cast_add]
          rw [ihclock]
          push_cast
          ring
        · intro i h
          match i with
          | 0 => simp
          | Nat.succ j =>
            simp only [List.get_cons_succ]
            have hj := ihget j (by simpa using h)
            rw [hj]
            have harith : attempt + 1 + 1 + j = attempt + 1 + j.succ := by omega
            rw [harith]
        · simpa using ihlen
        · intro _
          have := ihret (by omega)
          simpa using this

/-- C9: the `duration_s` recorded in an Upload Result spans the entire
attempt sequence: it equals the sum of the durations of all upload calls
made plus the sum of all exponential-backoff sleeps performed, so latency
percentiles computed from it include backoff time. -/
theorem duration_spans_attempts_and_sleeps (sched : ℕ → Attempt)
    (name : String) (size retries : ℕ) (t0 : ℚ) :
    (upload_one_bytes sched name size retries t0).1.duration_s
      = ((uploadLoop sched retries 0 0 t0).2.2.2.1).sum
        + (((upload_one_bytes sched name size retries t0).2).sum : ℚ) := by
  have h := (uploadLoop_master sched (retries + 1) retries 0 0 t0 (by omega)).1
  simp only [upload_one_bytes]
  rw [h]
  ring

/-- C7: the `i`-th backoff sleep (0-indexed; the claim's `n`-th retry has
`n = i + 1`) lasts exactly `min(2 ^ (i + 1), 10)` seconds; there is always
exactly one more upload call than sleeps, so no sleep follows the final
attempt; and with `max_retries = 3` and every attempt failing the sleeps
are exactly `[2, 4, 8]`. -/
theorem backoff_sleep_schedule (sched : ℕ → Attempt) (name : String)
    (size retries : ℕ) (t0 : ℚ) (i : ℕ)
    (h : i < ((upload_one_bytes sched name size retries t0).2).length) :
    ((upload_one_bytes sched name size retries t0).2).getD i 0
        = min (2 ^ (i + 1)) 10
    ∧ ((uploadLoop sched retries 0 0 t0).2.2.2.1).length
        = ((upload_one_bytes sched name size retries t0).2).length + 1
    ∧ (upload_one_bytes alwaysFail "b" 100 3 0).2 = [2, 4, 8] := by
  obtain ⟨-, hget, hlen, -⟩ :=
    uploadLoop_master sched (retries + 1) retries 0 0 t0 (by omega)
  refine ⟨?_, hlen, by simp [upload_one_bytes, uploadLoop, alwaysFail]⟩
  have hsleeps : (upload_one_bytes sched name size retries t0).2
      = (uploadLoop sched retries 0 0 t0).2.2.1 := rfl
  have h2 : i < ((uploadLoop sched retries 0 0 t0).2.2.1).length := hsleeps ▸ h
  have hg := hget i h2
  rw [hsleeps]
  simpa [List.getD_eq_getElem _ _ h2, List.getElem?_eq_getElem h2, Nat.add_comm] using hg

/-- Closed witness for `backoff_sleep_schedule` at the all-fail schedule
with `retries = 3` and `i = 0`. -/
theorem backoff_sleep_schedule_witness :
    (upload_one_bytes alwaysFail "b" 100 3 0).2.getD 0 0 = min (2 ^ 1) 10
    ∧ ((uploadLoop alwaysFail 3 0 0 0).2.2.2.1).length
        = ((upload_one_bytes alwaysFail "b" 100 3 0).2).length + 1
    ∧ (upload_one_bytes alwaysFail "b" 100 3 0).2 = [2, 4, 8] :=
  backoff_sleep_schedule alwaysFail "b" 100 3 0 0
    (by simp [upload_one_bytes, uploadLoop, alwaysFail])

/-- C2 counterexample: with `max_retries = 3` and an upload that fails on
every attempt, the recorded result has `status = "fail"` but its `retries`
field is `4 = max_retries + 1`, not `3`, so the recorded retry count does
exceed the configured `max_retries`. -/
theorem upload_allfail_retries_exceed_max :
    (upload_one_bytes alwaysFail "b" 100 3 0).1.status = "fail"
    ∧ (upload_one_bytes alwaysFail "b" 100 3 0).1.retries = 4
    ∧ ¬((upload_one_bytes alwaysFail "b" 100 3 0).1.retries ≤ 3) := by
  refine ⟨?_, ?_, ?_⟩ <;> simp [upload_one_bytes, uploadLoop, alwaysFail]

/-- C2 (amended): the recorded `retries` field never exceeds
`max_retries + 1`, and for an `ok` result it never exceeds `max_retries`;
with `max_retries = 3` and every attempt failing, the result has
`status = "fail"` and `retries = 4`, after `max_retries + 1 = 4` total
upload calls were made. -/
theorem upload_retries_bounds (sched : ℕ → Attempt) (name : String)
    (size retries : ℕ) (t0 : ℚ) :
    (upload_one_bytes sched name size retries t0).1.retries ≤ retries + 1
    ∧ ((upload_one_bytes sched name size retries t0).1.status = "ok" →
        (upload_one_bytes sched name size retries t0).1.retries ≤ retries)
    ∧ (upload_one_bytes alwaysFail "b" 100 3 0).1.status = "fail"
    ∧ (upload_one_bytes alwaysFail "b" 100 3 0).1.retries = 3 + 1
    ∧ ((uploadLoop alwaysFail 3 0 0 0).2.2.2.1).length = 3 + 1 := by
  obtain ⟨-, -, -, hret⟩ :=
    uploadLoop_master sched (retries + 1) retries 0 0 t0 (by omega)
  obtain ⟨hb, hok⟩ := hret (by omega)
  refine ⟨hb, hok, ?_, ?_, ?_⟩ <;> simp [upload_one_bytes, uploadLoop, alwaysFail]

/-- Closed witness for `upload_retries_bounds` at the all-fail schedule. -/
theorem upload_retries_bounds_witness :
    (upload_one_bytes alwaysFail "b" 100 3 0).1.retries ≤ 3 + 1 :=
  (upload_retries_bounds alwaysFail "b" 100 3 0).1

/-- C1 counterexample: the result of an all-fail attempt sequence has
`status = "fail"` and `size_bytes = 100`, yet recording it through the
worker's bookkeeping increments the shared `sent_bytes` counter by `100`,
not by `0`. -/
theorem sent_bytes_counts_failed_result :
    (upload_one_bytes alwaysFail "b" 100 3 0).1.status = "fail"
    ∧ (workerRecord ⟨[], 0⟩ (upload_one_bytes alwaysFail "b" 100 3 0).1).sent_bytes
        = 100 := by
  constructor <;> simp [workerRecord, upload_one_bytes, uploadLoop, alwaysFail]

/-- C1 (amended): `uploader_worker` increments the shared cumulative
`sent_bytes` counter by `size_bytes` for every result it appends,
regardless of the result's status, so failed results also count toward the
`max_mb` stop criterion: after recording any list of results the counter
has grown by the sum of all their sizes. -/
theorem sent_bytes_sums_all_results (st : WorkerState) (rs : List UploadResult) :
    (workerRecordAll st rs).sent_bytes
      = st.sent_bytes + (rs.map (fun r => r.size_bytes)).sum := by
  induction rs generalizing st with
  | nil => simp [workerRecordAll]
  | cons r rs ih =>
    simp only [workerRecordAll, workerRecord, ih, List.map_cons, List.sum_cons]
    omega

/-- Samples recorded from check index `i` are the indices `i, i+1, ...` up
to (excluding) the first check that observes the flag set. -/
lemma monitorSampleIdxs_eq (obs : List Bool) :
    ∀ i, monitorSampleIdxs obs i
      = (List.range (obs.findIdx (fun b => b))).map (fun j => j + i) := by
  induction obs with
  | nil => intro i; simp [monitorSampleIdxs]
  | cons b rest ih =>
    intro i
    by_cases hb : b
    · simp [monitorSampleIdxs, hb, List.findIdx_cons]
    · simp only [monitorSampleIdxs, hb, if_false, List.findIdx_cons, Bool.false_eq_true,
        cond_false]
      rw [ih (i + 1), List.range_succ_eq_map, List.map_cons, List.map_map]
      refine congrArg₂ _ (by omega) ?_
      apply List.map_congr_left
      intro a _
      simp [Function.comp]
      omega

/-- C3 counterexample: with the shutdown flag observed unset at check 0
and set at check 1, the monitor writes its single sample at check 0 and
stops; the metrics log contains zero records taken at or after the check
that observed shutdown, not one. -/
theorem monitor_no_sample_after_shutdown_cex :
    shutdownIndex [false, true] = 1
    ∧ monitorSamples [false, true] = [0]
    ∧ ¬((monitorSamples [false, true]).countP
          (fun j => decide (shutdownIndex [false, true] ≤ j)) = 1) := by
  refine ⟨rfl, rfl, ?_⟩
  decide

/-- C3 (amended): the monitor samples once per check while the shutdown
signal is observed unset and stops at the first check that observes it
set, performing no additional sample: its sample log is exactly the check
indices before the shutdown observation, and zero records are taken at or
after it. -/
theorem monitor_samples_stop_at_shutdown (obs : List Bool) :
    monitorSamples obs = List.range (shutdownIndex obs)
    ∧ (monitorSamples obs).countP (fun j => decide (shutdownIndex obs ≤ j)) = 0 := by
  have h := monitorSampleIdxs_eq obs 0
  have hmain : monitorSamples obs = List.range (shutdownIndex obs) := by
    simpa [monitorSamples, shutdownIndex] using h
  refine ⟨hmain, ?_⟩
  rw [hmain, List.countP_eq_zero]
  intro a ha
  simp only [List.mem_range] at ha
  simp only [decide_eq_true_eq]
  omega

/-- Each single rate adjustment keeps fps within the configured bounds. -/
lemma fpsUpdate_bounds (queue_size min_fps max_fps qsize fps : ℕ)
    (h1 : min_fps ≤ fps) (h2 : fps ≤ max_fps) :
    min_fps ≤ fpsUpdate queue_size min_fps max_fps qsize fps
    ∧ fpsUpdate queue_size min_fps max_fps qsize fps ≤ max_fps := by
  unfold fpsUpdate
  split_ifs with ha hb
  · obtain ⟨-, hf⟩ := ha
    omega
  · obtain ⟨-, hf⟩ := hb
    omega
  · exact ⟨h1, h2⟩

/-- C4: if the initial fps lies within `[min_fps, max_fps]`, then after
any sequence of producer cycles (one queue-occupancy observation each) the
current fps still lies within `[min_fps, max_fps]`. -/
theorem fps_invariant_preserved (queue_size min_fps max_fps fps : ℕ)
    (qs : List ℕ) (h1 : min_fps ≤ fps) (h2 : fps ≤ max_fps) :
    min_fps ≤ fpsAfterCycles queue_size min_fps max_fps fps qs
    ∧ fpsAfterCycles queue_size min_fps max_fps fps qs ≤ max_fps := by
  induction qs generalizing fps with
  | nil => exact ⟨h1, h2⟩
  | cons q qs ih =>
    obtain ⟨s1, s2⟩ := fpsUpdate_bounds queue_size min_fps max_fps q fps h1 h2
    simpa only [fpsAfterCycles] using ih _ s1 s2

/-- Closed witness for `fps_invariant_preserved`: capacity 5, bounds
`[1, 30]`, initial fps 5, cycles observing occupancies 5, 0, 1. -/
theorem fps_invariant_preserved_witness :
    1 ≤ fpsAfterCycles 5 1 30 5 [5, 0, 1]
    ∧ fpsAfterCycles 5 1 30 5 [5, 0, 1] ≤ 30 :=
  fps_invariant_preserved 5 1 30 5 [5, 0, 1] (by decide) (by decide)

/-- C5: the fps adjustment of `main` coincides with the spec's rate
controller phrased on the occupancy ratio (for a positive capacity):
decrement by exactly 1 when the ratio exceeds 0.8 and fps is above
`min_fps`, else increment by exactly 1 when the ratio is below 0.2 and fps
is below `max_fps`, else hold; the target inter-frame interval is
`1 / fps`; and the two spec scenarios hold: occupancy 5/5 at fps 10 with
`min_fps = 1` gives 9, occupancy 1/10 at fps 5 with `max_fps = 30`
gives 6. -/
theorem rate_update_matches_spec (queue_size min_fps max_fps qsize fps : ℕ)
    (hcap : 0 < queue_size) :
    fpsUpdate queue_size min_fps max_fps qsize fps
      = rateControllerSpec queue_size min_fps max_fps qsize fps
    ∧ fpsUpdate 5 1 30 5 10 = 9
    ∧ fpsUpdate 10 1 30 1 5 = 6
    ∧ interval fps = 1 / (fps : ℚ) := by
  have hq : (0 : ℚ) < (queue_size : ℚ) := by exact_mod_cast hcap
  have e1 : ((queue_size : ℚ) * (8 / 10) < (qsize : ℚ))
      ↔ ((8 : ℚ) / 10 < (qsize : ℚ) / (queue_size : ℚ)) := by
    rw [lt_div_iff₀ hq, mul_comm]
  have e2 : ((qsize : ℚ) < (queue_size : ℚ) * (2 / 10))
      ↔ ((qsize : ℚ) / (queue_size : ℚ) < (2 : ℚ) / 10) := by
    rw [div_lt_iff₀ hq, mul_comm]
  refine ⟨?_, by norm_num [fpsUpdate], by norm_num [fpsUpdate], rfl⟩
  simp only [fpsUpdate, rateControllerSpec, gt_iff_lt, e1, e2]

/-- Closed witness for `rate_update_matches_spec` at capacity 5,
occupancy 4, fps 10. -/
theorem rate_update_matches_spec_witness :
    fpsUpdate 5 1 30 4 10 = rateControllerSpec 5 1 30 4 10
    ∧ fpsUpdate 5 1 30 5 10 = 9
    ∧ fpsUpdate 10 1 30 1 5 = 6
    ∧ interval 10 = 1 / (10 : ℚ) :=
  rate_update_matches_spec 5 1 30 4 10 (by decide)

/-- Summary total as the plain sum of the `ok` sizes (the guarding
empty-check of the source is redundant because an empty sum is zero). -/
lemma bytes_total_eq_sum (rows : List UploadResult) :
    bytes_total rows = (sizes rows).sum := by
  unfold bytes_total
  split_ifs with h
  · rw [List.isEmpty_iff] at h
    simp [h]
  · rfl

/-- C6: the summary's `bytes_total` equals exactly the sum of `size_bytes`
over the results whose status is `ok`, for every result log, and is `0`
when there are no `ok` results. -/
theorem bytes_total_eq_sum_ok_sizes (rows : List UploadResult) :
    bytes_total rows
      = rows.foldr (fun r acc => if r.status = "ok" then r.size_bytes + acc else acc) 0
    ∧ (okRows rows = [] → bytes_total rows = 0) := by
  constructor
  · rw [bytes_total_eq_sum]
    induction rows with
    | nil => simp [sizes, okRows]
    | cons r rs ih =>
      by_cases h : r.status = "ok" <;>
        simp [sizes, okRows, List.filter_cons, h, ← ih]
  · intro h
    rw [bytes_total_eq_sum]
    simp [sizes, h]

/-- Closed witness for `bytes_total_eq_sum_ok_sizes` at the empty log. -/
theorem bytes_total_eq_sum_ok_sizes_witness :
    bytes_total ([] : List UploadResult) = 0 :=
  (bytes_total_eq_sum_ok_sizes []).2 rfl

/-- C8: the latency percentile inputs are the durations of `ok` results
only (appending a non-`ok` result leaves them unchanged), and when there
are no `ok` durations every percentile is reported as `none` - an explicit
absent value, not zero and not an exception (`pct` is total). -/
theorem percentiles_over_ok_only (rows : List UploadResult) (r : UploadResult)
    (hfail : r.status ≠ "ok") :
    durs (rows ++ [r]) = durs rows
    ∧ (durs rows = [] → latencyPercentiles rows = (none, none, none, none))
    ∧ (∀ p : ℚ, pct [] p = none) := by
  refine ⟨?_, ?_, ?_⟩
  · simp [durs, okRows, List.filter_append, List.filter_cons, hfail]
  · intro h
    simp [latencyPercentiles, pct, h]
  · intro p
    simp [pct]

/-- Closed witness for `percentiles_over_ok_only` at the empty log and a
concrete failed result. -/
theorem percentiles_over_ok_only_witness :
    durs ([] ++ [failResultEx]) = durs []
    ∧ (durs [] = [] → latencyPercentiles [] = (none, none, none, none))
    ∧ (∀ p : ℚ, pct [] p = none) :=
  percentiles_over_ok_only [] failResultEx (by decide)

/-- C10: when a named interface is configured (a non-empty `nic`) but
absent from the per-interface counter table, the sample row falls back to
the aggregate counters while its `nic` column still records the configured
name; the label `"aggregate"` is used when no interface is configured. -/
theorem nic_fallback_keeps_name (s : String)
    (pernic : String → Option NetCounters) (agg : NetCounters)
    (hs : s ≠ "") (hmiss : pernic s = none) :
    sampleRow (some s) pernic agg = (agg, s)
    ∧ sampleRow none pernic agg = (agg, "aggregate") := by
  constructor
  · simp [sampleRow, hs, hmiss]
  · simp [sampleRow]

/-- Closed witness for `nic_fallback_keeps_name` at `nic = "eth0"` and an
empty per-interface table. -/
theorem nic_fallback_keeps_name_witness :
    sampleRow (some "eth0") (fun _ => none) ⟨0, 0, 0, 0⟩ = (⟨0, 0, 0, 0⟩, "eth0")
    ∧ sampleRow none (fun _ => none) (⟨0, 0, 0, 0⟩ : NetCounters)
        = (⟨0, 0, 0, 0⟩, "aggregate") :=
  nic_fallback_keeps_name "eth0" (fun _ => none) ⟨0, 0, 0, 0⟩ (by decide) rfl

end ConstantUpload
